import Mathlib

/-!
Verification of the query/aggregation and serialization layer of the
monthly-activity-report backend (`main.py`, `schemas.py`).

The handlers translate HTTP parameters into queries against a document
store.  Pure logic (date-window computation, filter construction, document
serialization, aggregation reshaping, CSV/text export) is embedded directly
from the source.  The document-store collaborator (`database.py`, not part
of the provided sources) and the store's filter/aggregation semantics are
modelled from the specification's external-interface contract (§6) and the
store's documented query operators.
-/

namespace MonthlyReport

/-! ## Calendar arithmetic

Python's `datetime.datetime(y, m, d)` accepts `1 ≤ y ≤ 9999`,
`1 ≤ m ≤ 12`, `1 ≤ d ≤` days in that month, and raises `ValueError`
otherwise.  We embed construction as an `Option`-returning function over
`Int` inputs (the handlers receive query parameters as signed integers). -/

/-- Gregorian leap-year test (proleptic, as Python's `datetime`). -/
def isLeap (y : Nat) : Bool :=
  (y % 4 == 0 && y % 100 != 0) || y % 400 == 0

/-- Number of days in month `m` of year `y` (for `1 ≤ m ≤ 12`). -/
def daysInMonth (y m : Nat) : Nat :=
  if m = 2 then (if isLeap y then 29 else 28)
  else if m = 4 ∨ m = 6 ∨ m = 9 ∨ m = 11 then 30
  else 31

/-- Days in year `y` strictly before month `m` (so `daysBeforeMonth y 1 = 0`). -/
def daysBeforeMonth (y : Nat) : Nat → Nat
  | 0 => 0
  | 1 => 0
  | m + 2 => daysBeforeMonth y (m + 1) + daysInMonth y (m + 1)

/-- Count of leap years among `0, 1, …, y-1`; only differences are ever used. -/
def leapsBefore : Nat → Nat
  | 0 => 0
  | y + 1 => leapsBefore y + (if isLeap y then 1 else 0)

/-- A calendar date, already validated (year/month/day as naturals). -/
structure Ymd where
  y : Nat
  m : Nat
  d : Nat
deriving DecidableEq, Repr

/-- Linear day number of a date (a shifted Rata Die); differences of
`toOrdinal` are exact day counts. -/
def toOrdinal (t : Ymd) : Nat :=
  365 * t.y + leapsBefore t.y + daysBeforeMonth t.y t.m + t.d

/-- `datetime.datetime(y, m, d)`: `some` date when in range, `none` for the
`ValueError` case. -/
def mkDate (y m d : Int) : Option Ymd :=
  if 1 ≤ y ∧ y ≤ 9999 ∧ 1 ≤ m ∧ m ≤ 12 ∧ 1 ≤ d ∧ d ≤ (daysInMonth y.toNat m.toNat : Int)
  then some ⟨y.toNat, m.toNat, d.toNat⟩ else none

/-- Python `date` comparison `a <= b` (lexicographic on year, month, day). -/
def ymdLe (a b : Ymd) : Bool :=
  a.y < b.y || (a.y = b.y && (a.m < b.m || (a.m = b.m && a.d ≤ b.d)))

/-- Python `date` comparison `a < b`. -/
def ymdLt (a b : Ymd) : Bool :=
  a.y < b.y || (a.y = b.y && (a.m < b.m || (a.m = b.m && a.d < b.d)))

/-- The month-window computation shared by `list_activities`, `dashboard`
and `monthly_recap`:
`start = datetime(y, m, 1)`;
`end = datetime(y + 1, 1, 1) if m == 12 else datetime(y, m + 1, 1)`.
`none` when either construction raises. -/
def resolveWindow (m y : Int) : Option (Ymd × Ymd) := do
  let s ← mkDate y m 1
  let e ← if m = 12 then mkDate (y + 1) 1 1 else mkDate y (m + 1) 1
  pure (s, e)

/-! ## Python values and documents

Records flow through the handlers as loosely-typed Python dicts coming out
of the document store.  `PyVal` captures the value shapes the layer
manipulates: `None`, strings, numbers (digit rendering of floats is
abstracted by `Rat`), `date`/`datetime` objects, the store's native
`ObjectId`, lists and nested dicts.  A dict is a key-ordered association
list with unique keys (Python dict semantics). -/

mutual
inductive PyVal where
  | vNone
  | vStr (s : String)
  | vNum (q : Rat)
  | vDate (y m d : Nat)
  | vDateTime (y m d hh mi ss : Nat)
  | vOid (s : String)
  | vList (xs : PyList)
  | vDict (fs : PyFields)
deriving DecidableEq, Repr
inductive PyList where
  | nil
  | cons (hd : PyVal) (tl : PyList)
deriving DecidableEq, Repr
inductive PyFields where
  | nil
  | cons (k : String) (v : PyVal) (tl : PyFields)
deriving DecidableEq, Repr
end

/-- `doc.get(key)`: the value bound to `key`, if any. -/
def fget : PyFields → String → Option PyVal
  | .nil, _ => none
  | .cons k v tl, key => if k = key then some v else fget tl key

/-- `doc[key] = w`: replace in place when the key exists, append otherwise
(Python dicts keep insertion order). -/
def fset : PyFields → String → PyVal → PyFields
  | .nil, key, w => .cons key w .nil
  | .cons k v tl, key, w =>
    if k = key then .cons key w tl else .cons k v (fset tl key w)

/-- `doc.pop(key, None)`: drop the binding of `key`.  Keys of a Python dict
are unique, so dropping every binding coincides with popping the one. -/
def fdel : PyFields → String → PyFields
  | .nil, _ => .nil
  | .cons k v tl, key =>
    if k = key then fdel tl key else .cons k v (fdel tl key)

/-- Zero-padded two-digit rendering, as in ISO date text. -/
def pad2 (n : Nat) : String := if n < 10 then "0" ++ toString n else toString n

/-- Zero-padded four-digit year rendering. -/
def pad4 (n : Nat) : String :=
  if n < 10 then "000" ++ toString n
  else if n < 100 then "00" ++ toString n
  else if n < 1000 then "0" ++ toString n
  else toString n

/-- `date.isoformat()`: `YYYY-MM-DD`. -/
def isoDate (y m d : Nat) : String := pad4 y ++ "-" ++ pad2 m ++ "-" ++ pad2 d

/-- `HH:MM:SS` clock text. -/
def hmsText (hh mi ss : Nat) : String :=
  pad2 hh ++ ":" ++ pad2 mi ++ ":" ++ pad2 ss

/-- `datetime.isoformat()`: `YYYY-MM-DDTHH:MM:SS` (microseconds, always zero
in this model, are omitted as Python does). -/
def isoDateTime (y m d hh mi ss : Nat) : String :=
  isoDate y m d ++ "T" ++ hmsText hh mi ss

/-- Escaping of one character inside Python `repr` of a string. -/
def escapeChar (c : Char) : String :=
  if c = '\\' then "\\\\"
  else if c = '\'' then "\\'"
  else if c = '\n' then "\\n"
  else if c = '\r' then "\\r"
  else if c = '\t' then "\\t"
  else String.singleton c

/-- Body of Python `repr` of a string (between the quotes). -/
def escapeStr (s : String) : String := String.join (s.data.map escapeChar)

mutual
/-- Python `repr` of a value, as used for elements inside `str` of a
container.  Modelled from CPython's documented rendering; float digit text
is abstracted through `Rat`'s rendering (never contains a line break or a
quote, which is all later reasoning uses). -/
def pyRepr : PyVal → String
  | .vNone => "None"
  | .vStr s => "'" ++ escapeStr s ++ "'"
  | .vNum q => toString q
  | .vDate y m d =>
    "datetime.date(" ++ toString y ++ ", " ++ toString m ++ ", "
      ++ toString d ++ ")"
  | .vDateTime y m d hh mi ss =>
    "datetime.datetime(" ++ toString y ++ ", " ++ toString m ++ ", "
      ++ toString d ++ ", " ++ toString hh ++ ", " ++ toString mi ++ ", "
      ++ toString ss ++ ")"
  | .vOid s => "ObjectId('" ++ s ++ "')"
  | .vList xs => "[" ++ pyReprItems xs ++ "]"
  | .vDict fs => "\x7b" ++ pyReprFields fs ++ "\x7d"
/-- Comma-separated `repr` of list elements. -/
def pyReprItems : PyList → String
  | .nil => ""
  | .cons x .nil => pyRepr x
  | .cons x tl => pyRepr x ++ ", " ++ pyReprItems tl
/-- Comma-separated `repr` of dict entries. -/
def pyReprFields : PyFields → String
  | .nil => ""
  | .cons k v .nil => "'" ++ escapeStr k ++ "': " ++ pyRepr v
  | .cons k v tl =>
    "'" ++ escapeStr k ++ "': " ++ pyRepr v ++ ", " ++ pyReprFields tl
end

/-- Python `str()` of a value: identity on strings, `isoformat`-style text
for dates (`str(date)` is the ISO form, `str(datetime)` uses a space
separator), the hex text of an `ObjectId`, `repr` for containers. -/
def pyStr : PyVal → String
  | .vNone => "None"
  | .vStr s => s
  | .vNum q => toString q
  | .vDate y m d => isoDate y m d
  | .vDateTime y m d hh mi ss => isoDate y m d ++ " " ++ hmsText hh mi ss
  | .vOid s => s
  | .vList xs => pyRepr (.vList xs)
  | .vDict fs => pyRepr (.vDict fs)

/-! ## Document serializer (`serialize_doc`)

The source mutates `doc` in place: it re-keys a non-`None` `_id` to a plain
string `id` field, then walks `list(doc.items())`, replacing each
`datetime`/`date` value by its `isoformat` string and rebuilding each list
value with nested dicts recursively serialized.  The embedding follows the
source order: the id step first, then the conversion walk.  Termination is
by a lexicographic measure: container nesting weight (the id step only
inserts a string leaf and drops the `_id` binding, so it never increases
the weight), then a phase number, then the structural size. -/

mutual
/-- Nesting weight of a value: containers count one plus their contents. -/
def weightV : PyVal → Nat
  | .vList xs => weightL xs + 1
  | .vDict fs => weightF fs + 1
  | _ => 0
/-- Nesting weight of a list's elements. -/
def weightL : PyList → Nat
  | .nil => 0
  | .cons x tl => weightV x + weightL tl
/-- Nesting weight of a dict's values. -/
def weightF : PyFields → Nat
  | .nil => 0
  | .cons _ v tl => weightV v + weightF tl
end

/-- Termination support: setting a string value never increases the
nesting weight of a dict. -/
theorem weightF_fset_le (key : String) (w : String) :
    ∀ gs : PyFields, weightF (fset gs key (.vStr w)) ≤ weightF gs
  | .nil => by simp [fset, weightF, weightV]
  | .cons k v tl => by
    have ih := weightF_fset_le key w tl
    by_cases hk : k = key <;> simp [fset, hk, weightF, weightV] <;> omega

/-- Termination support: dropping a binding never increases the nesting
weight of a dict. -/
theorem weightF_fdel_le (key : String) :
    ∀ gs : PyFields, weightF (fdel gs key) ≤ weightF gs
  | .nil => by simp [fdel, weightF]
  | .cons k v tl => by
    have ih := weightF_fdel_le key tl
    by_cases hk : k = key <;> simp [fdel, hk, weightF] <;> omega

mutual
/-- One step of the `for k, v in list(doc.items())` loop body: a
`datetime`/`date` value becomes its `isoformat` string; a list value is
rebuilt item-wise; everything else is left untouched. -/
def convertVal : PyVal → PyVal
  | .vDate y m d => .vStr (isoDate y m d)
  | .vDateTime y m d hh mi ss => .vStr (isoDateTime y m d hh mi ss)
  | .vList xs => .vList (convertItems xs)
  | v => v
termination_by v => (weightV v, 1, sizeOf v)
decreasing_by
  all_goals simp_wf
  all_goals simp only [Prod.lex_def, true_and, weightV, weightL, weightF]
  all_goals omega
/-- The rebuild of a list value: `new_list.append(serialize_doc(item))` for
dict items, `new_list.append(item)` otherwise. -/
def convertItems : PyList → PyList
  | .nil => .nil
  | .cons x tl => .cons (convertItem x) (convertItems tl)
termination_by xs => (weightL xs, 1, sizeOf xs)
decreasing_by
  all_goals simp_wf
  all_goals simp only [Prod.lex_def, true_and, weightV, weightL, weightF]
  all_goals omega
/-- One list item: nested dicts are recursively serialized, non-dict items
pass through unchanged. -/
def convertItem : PyVal → PyVal
  | .vDict fs => .vDict (serialize_doc fs)
  | x => x
termination_by x => (weightV x, 0, sizeOf x)
decreasing_by
  all_goals simp_wf
  all_goals simp only [Prod.lex_def, true_and, weightV, weightL, weightF]
  all_goals omega
/-- The conversion loop applied to every entry of the dict (the loop
iterates over a snapshot of the items and reassigns `doc[k]`, so it maps
values pointwise, keeping keys and order). -/
def mapConvert : PyFields → PyFields
  | .nil => .nil
  | .cons k v tl => .cons k (convertVal v) (mapConvert tl)
termination_by fs => (weightF fs, 2, sizeOf fs)
decreasing_by
  all_goals simp_wf
  all_goals simp only [Prod.lex_def, true_and, weightV, weightL, weightF]
  all_goals omega
/-- `serialize_doc`: empty (falsy) dicts are returned as-is; a non-`None`
`_id` is re-emitted as `id` via `str()` (`doc["id"] = str(doc.get("_id"))`,
then `doc.pop("_id", None)`); finally the conversion loop runs over the
resulting entries. -/
def serialize_doc : PyFields → PyFields
  | .nil => .nil
  | .cons k v tl =>
    match fget (.cons k v tl) "_id" with
    | some a =>
      if a = .vNone then mapConvert (.cons k v tl)
      else
        mapConvert
          (fdel (fset (.cons k v tl) "id" (.vStr (pyStr a))) "_id")
    | none => mapConvert (.cons k v tl)
termination_by fs => (weightF fs, 3, sizeOf fs)
decreasing_by
· simp_wf
  simp only [Prod.lex_def, true_and]
  omega
· simp_wf
  rename_i k v tl hne
  have h2 := weightF_fset_le "id" (pyStr a) (PyFields.cons k v tl)
  have h1 :=
    weightF_fdel_le "_id"
      (fset (PyFields.cons k v tl) "id" (PyVal.vStr (pyStr a)))
  simp only [Prod.lex_def, true_and]
  omega
end

/-- The caller's view of the argument after `serialize_doc(doc)` returns.
In the source every update (`doc["id"] = …`, `doc.pop("_id", None)`,
`doc[k] = …`) mutates the argument object itself and the function returns
that same object, so after the call the input alias holds exactly the
returned value. -/
def serialize_doc_inputAfter (doc : PyFields) : PyFields := serialize_doc doc

/-! ## Identifier codec (`to_object_id`)

`ObjectId(oid)` accepts exactly a 24-character hexadecimal string (the
store's id scheme, as the spec's §4.1 records); anything else raises, and
`to_object_id` maps any failure to an HTTP 400. -/

/-- An HTTP error response raised by a handler. -/
structure HTTPError where
  status : Nat
  detail : String
deriving DecidableEq, Repr

/-- Hexadecimal digit test (both cases), the `ObjectId` character set. -/
def isHexChar (c : Char) : Bool :=
  c.isDigit || ('a' ≤ c && c ≤ 'f') || ('A' ≤ c && c ≤ 'F')

/-- Well-formedness of an identifier string for the store's id scheme:
24 hexadecimal characters.  Modelled from the bson collaborator's
documented constructor contract (the collaborator itself is external). -/
def isValidObjectIdStr (s : String) : Bool :=
  s.length = 24 && s.data.all isHexChar

/-- `to_object_id`: any exception from `ObjectId(oid)` is caught and
re-raised as `HTTPException(status_code=400, detail="Invalid ID format")`. -/
def to_object_id (oid : String) : Except HTTPError PyVal :=
  if isValidObjectIdStr oid then .ok (.vOid oid)
  else .error ⟨400, "Invalid ID format"⟩

/-! ## Store filter semantics

`list_activities` builds a Mongo-style filter dict; `database.py` (not in
the provided sources) executes it.  `ActQuery` mirrors which keys the
handler sets, and `matchesQuery` gives the filter its meaning, modelled
from the spec's §6 `findMany` contract and the store's documented operator
semantics (`$gte`/`$lt` compare only values of the same type, `$regex`
matches strings against a PCRE pattern, unanchored, `"i"` = caseless). -/

/-- One pattern character against one text character: `.` matches anything,
any other character matches itself caselessly (ASCII case folding, as the
store's caseless flag).  The embedding covers patterns built from plain
characters and `.`; quantifiers, classes and anchors are outside the
modelled fragment. -/
def charMatch (p c : Char) : Bool := p = '.' || p.toLower = c.toLower

/-- The pattern consumed against a prefix of the text. -/
def matchHere : List Char → List Char → Bool
  | [], _ => true
  | _ :: _, [] => false
  | p :: ps, c :: cs => charMatch p c && matchHere ps cs

/-- Unanchored search: the pattern may start at any position. -/
def searchFrom (ps : List Char) : List Char → Bool
  | [] => matchHere ps []
  | c :: cs => matchHere ps (c :: cs) || searchFrom ps cs

/-- Caseless unanchored regex search of `pat` inside `s`
(`{"$regex": pat, "$options": "i"}` on the modelled fragment). -/
def iregexSearch (pat s : String) : Bool := searchFrom pat.data s.data

/-- PCRE metacharacters: a pattern avoiding all of these is a literal. -/
def isRegexMeta (c : Char) : Bool :=
  c = '\\' || c = '^' || c = '$' || c = '.' || c = '|' || c = '?' ||
  c = '*' || c = '+' || c = '(' || c = ')' || c = '[' || c = ']' ||
  c = '\x7b' || c = '\x7d'

/-- A search string with no regex metacharacters. -/
def isRegexLiteral (s : String) : Bool := s.data.all (fun c => !isRegexMeta c)

/-- The matching relation claimed by the specification, written from its
words (for comparison with the filter the source builds): the search string
occurs case-insensitively as a literal substring. -/
def substrCaseless (pat s : String) : Bool :=
  decide ((pat.data.map Char.toLower) <:+: (s.data.map Char.toLower))

/-- Claimed per-field test (a non-string or missing field holds no
substring). -/
def fieldSubstrMatch (pat : String) : Option PyVal → Bool
  | some (.vStr s) => substrCaseless pat s
  | _ => false

/-- Claimed record-level test: literal substring of at least one of `name`,
`result`, `notes` (logical OR), from the specification's words. -/
def claimedSearchMatch (pat : String) (doc : PyFields) : Bool :=
  fieldSubstrMatch pat (fget doc "name") ||
  fieldSubstrMatch pat (fget doc "result") ||
  fieldSubstrMatch pat (fget doc "notes")

/-- The filter dict built by `list_activities`: which conditions were set. -/
structure ActQuery where
  dateWindow : Option (Ymd × Ymd)
  category : Option String
  search : Option String
deriving Repr

/-- `{"$gte": start, "$lt": end}` on a field: matches exactly the `date`
values inside the half-open window (missing fields and non-date values
never satisfy a typed range comparison in the store). -/
def dateInWindow (w : Ymd × Ymd) : Option PyVal → Bool
  | some (.vDate y m d) => ymdLe w.1 ⟨y, m, d⟩ && ymdLt ⟨y, m, d⟩ w.2
  | _ => false

/-- `{"$regex": pat, "$options": "i"}` on a field: only string values can
match. -/
def fieldRegexMatch (pat : String) : Option PyVal → Bool
  | some (.vStr s) => iregexSearch pat s
  | _ => false

/-- Evaluation of the built filter against one stored record: all present
conditions conjoined; the `$or` clause is the three-field regex search. -/
def matchesQuery (q : ActQuery) (doc : PyFields) : Bool :=
  (match q.dateWindow with
   | none => true
   | some w => dateInWindow w (fget doc "date")) &&
  (match q.category with
   | none => true
   | some c => fget doc "category" = some (.vStr c)) &&
  (match q.search with
   | none => true
   | some s =>
     fieldRegexMatch s (fget doc "name") ||
     fieldRegexMatch s (fget doc "result") ||
     fieldRegexMatch s (fget doc "notes"))

/-- Modelled from the spec: `database.py` is not among the provided
sources; §6 specifies `findMany(collection, filter) -> sequence<record>`,
the records satisfying the filter, here in stored order. -/
def get_documents (q : ActQuery) (store : List PyFields) : List PyFields :=
  store.filter (matchesQuery q)

/-! ## Activity query builder and `list_activities` -/

/-- Python truthiness of an optional integer parameter (`None` and `0` are
falsy). -/
def truthyInt : Option Int → Bool
  | none => false
  | some n => n != 0

/-- `value or default` for an optional integer parameter. -/
def orDefault (o : Option Int) (d : Nat) : Int :=
  match o with
  | some n => if n = 0 then (d : Int) else n
  | none => (d : Int)

/-- The `query` dict built by `list_activities` from its parameters:
a date condition only when `month or year` is truthy and the window
construction does not raise (`except Exception: pass` — fails open);
`category` on truthiness; the `$or` regex block on a truthy `search`.
`now` is the current UTC date supplying the defaults. -/
def buildListQuery (now : Ymd) (month year : Option Int)
    (category search : Option String) : ActQuery :=
  { dateWindow :=
      if truthyInt month || truthyInt year then
        resolveWindow (orDefault month now.m) (orDefault year now.y)
      else none,
    category :=
      match category with
      | some c => if c = "" then none else some c
      | none => none,
    search :=
      match search with
      | some s => if s = "" then none else some s
      | none => none }

/-- `GET /api/activities`: filter, then serialize each matching record. -/
def list_activities (now : Ymd) (month year : Option Int)
    (category search : Option String) (store : List PyFields) :
    List PyFields :=
  (get_documents (buildListQuery now month year category search) store).map
    serialize_doc

/-! ## Aggregation (`dashboard`, `monthly_recap`)

The two handlers run the same `$match`/`$group` pipelines.  The grouping is
modelled from the store's documented `$group` semantics: one output per
distinct key value (the key of a missing field is null); output order is
unspecified by the store, modelled as first-appearance order. -/

/-- Python truthiness of a document value (`None`, `""`, `0`, `[]`, and
an empty dict are falsy). -/
def pyFalsy : PyVal → Bool
  | .vNone => true
  | .vStr s => s = ""
  | .vNum q => q = 0
  | .vList .nil => true
  | .vDict .nil => true
  | _ => false

/-- The `$group` key `"$category"` of a record (null when absent). -/
def catOf (doc : PyFields) : PyVal :=
  match fget doc "category" with
  | some v => v
  | none => .vNone

/-- Add one record's key to the running group counts. -/
def bumpGroup : List (PyVal × Nat) → PyVal → List (PyVal × Nat)
  | [], k => [(k, 1)]
  | (k', n) :: tl, k =>
    if k' = k then (k', n + 1) :: tl else (k', n) :: bumpGroup tl k

/-- `{"$group": {"_id": "$category", "count": {"$sum": 1}}}` over the
matched records. -/
def groupByCat (docs : List PyFields) : List (PyVal × Nat) :=
  docs.foldl (fun acc d => bumpGroup acc (catOf d)) []

/-- `{"$ifNull": [field, 0]}` then `$sum`: numeric value or zero. -/
def numOrZero : Option PyVal → Rat
  | some (.vNum q) => q
  | _ => 0

/-- Total of the `income` fields over the matched records. -/
def sumIncome (docs : List PyFields) : Rat :=
  (docs.map (fun d => numOrZero (fget d "income"))).sum

/-- Total of the `expense` fields over the matched records. -/
def sumExpense (docs : List PyFields) : Rat :=
  (docs.map (fun d => numOrZero (fget d "expense"))).sum

/-- Insert-or-replace into a dict keyed by document values (the dict
comprehension `{item["_id"] or "unknown": item["count"] for item in …}`:
a later duplicate key overwrites the earlier entry). -/
def pdictSet : List (PyVal × Nat) → PyVal → Nat → List (PyVal × Nat)
  | [], k, n => [(k, n)]
  | (k', n') :: tl, k, n =>
    if k' = k then (k, n) :: tl else (k', n') :: pdictSet tl k n

/-- The falsy-to-`"unknown"` relabeling `item["_id"] or "unknown"`. -/
def relabelCat (k : PyVal) : PyVal := if pyFalsy k then .vStr "unknown" else k

/-- The comprehension building `per_category` / `categories` from the group
output. -/
def perCategoryOf (groups : List (PyVal × Nat)) : List (PyVal × Nat) :=
  groups.foldl (fun acc kn => pdictSet acc (relabelCat kn.1) kn.2) []

/-- Sum of the per-category dict's values (`sum(categories.values())`). -/
def sumCounts (d : List (PyVal × Nat)) : Nat := (d.map (fun kn => kn.2)).sum

/-- Response shape of `GET /api/dashboard`. -/
structure DashResult where
  total_activities : Nat
  total_income : Rat
  total_expense : Rat
  per_category : List (PyVal × Nat)
deriving DecidableEq

/-- `GET /api/dashboard`: the window construction is NOT wrapped in
`try/except`, so a `ValueError` propagates and the request fails. -/
def dashboard (now : Ymd) (month year : Option Int)
    (store : List PyFields) : Except String DashResult :=
  let y := orDefault year now.y
  let m := orDefault month now.m
  match mkDate y m 1 with
  | none => .error "ValueError"
  | some s =>
    match (if m = 12 then mkDate (y + 1) 1 1 else mkDate y (m + 1) 1) with
    | none => .error "ValueError"
    | some e =>
      let docs := store.filter (fun d => dateInWindow (s, e) (fget d "date"))
      .ok { total_activities := docs.length,
            total_income := sumIncome docs,
            total_expense := sumExpense docs,
            per_category := perCategoryOf (groupByCat docs) }

/-- First dict key attaining the maximal count
(`max(categories, key=categories.get)` keeps the first of equals). -/
def maxKeyAux : List (PyVal × Nat) → PyVal → Nat → PyVal
  | [], bk, _ => bk
  | (k, n) :: tl, bk, bn =>
    if n > bn then maxKeyAux tl k n else maxKeyAux tl bk bn

/-- `max(categories, key=categories.get) if categories else "N/A"`,
rendered as f-string text. -/
def topCategoryText (d : List (PyVal × Nat)) : String :=
  match d with
  | [] => "N/A"
  | (k, n) :: tl => pyStr (maxKeyAux tl k n)

/-- `f"{x:.2f}"` on a non-negative-typical amount: two decimal places.
Digit rendering matches Python except that ties round half away from zero
rather than half to even; no claim depends on tie digits. -/
def rat2f (q : Rat) : String :=
  let c : Int := round (q * 100)
  let a := c.natAbs
  (if c < 0 then "-" else "") ++ toString (a / 100) ++ "." ++ pad2 (a % 100)

/-- Response shape of `POST /api/recap`. -/
structure RecapResult where
  month : Int
  year : Int
  categories : List (PyVal × Nat)
  income : Rat
  expense : Rat
  summary : String

/-- The recap's fixed-template summary sentence. -/
def recapSummary (m y : Int) (categories : List (PyVal × Nat))
    (inc exp : Rat) : String :=
  "Bulan " ++ toString m ++ "/" ++ toString y ++ ": Total kegiatan "
    ++ toString (sumCounts categories) ++ ". "
    ++ "Kategori terbanyak: " ++ topCategoryText categories ++ ". "
    ++ "Pemasukan " ++ rat2f inc ++ ", Pengeluaran " ++ rat2f exp ++ "."

/-- `POST /api/recap`: same unguarded window construction and pipelines as
the dashboard, plus the composed summary. -/
def monthly_recap (now : Ymd) (month year : Option Int)
    (store : List PyFields) : Except String RecapResult :=
  let y := orDefault year now.y
  let m := orDefault month now.m
  match mkDate y m 1 with
  | none => .error "ValueError"
  | some s =>
    match (if m = 12 then mkDate (y + 1) 1 1 else mkDate y (m + 1) 1) with
    | none => .error "ValueError"
    | some e =>
      let docs := store.filter (fun d => dateInWindow (s, e) (fget d "date"))
      let categories := perCategoryOf (groupByCat docs)
      let inc := sumIncome docs
      let exp := sumExpense docs
      .ok { month := m, year := y, categories := categories,
            income := inc, expense := exp,
            summary := recapSummary m y categories inc exp }

/-! ## Partial update (`update_activity`) -/

/-- The `ActivityUpdate` request model: every field optional. -/
structure ActivityUpdate where
  date : Option Ymd := none
  name : Option String := none
  category : Option String := none
  duration : Option Rat := none
  result : Option String := none
  notes : Option String := none
  income : Option Rat := none
  expense : Option Rat := none
  finance_category : Option String := none

/-- Keep a field in the dump only when supplied. -/
def dumpField (k : String) (v : Option PyVal) (rest : PyFields) : PyFields :=
  match v with
  | some w => .cons k w rest
  | none => rest

/-- `payload.model_dump(exclude_none=True)`: supplied fields in declaration
order. -/
def updateFields (p : ActivityUpdate) : PyFields :=
  dumpField "date" (p.date.map fun t => PyVal.vDate t.y t.m t.d)
    (dumpField "name" (p.name.map PyVal.vStr)
      (dumpField "category" (p.category.map PyVal.vStr)
        (dumpField "duration" (p.duration.map PyVal.vNum)
          (dumpField "result" (p.result.map PyVal.vStr)
            (dumpField "notes" (p.notes.map PyVal.vStr)
              (dumpField "income" (p.income.map PyVal.vNum)
                (dumpField "expense" (p.expense.map PyVal.vNum)
                  (dumpField "finance_category"
                    (p.finance_category.map PyVal.vStr) .nil))))))))

/-- `$set`: apply every update entry to the document. -/
def fsetAll : PyFields → PyFields → PyFields
  | doc, .nil => doc
  | doc, .cons k v tl => fsetAll (fset doc k v) tl

/-- `update_one({"_id": oid}, {"$set": fields})`: the first record with the
matching native id receives the updates. -/
def updateFirst : List PyFields → PyVal → PyFields → List PyFields
  | [], _, _ => []
  | d :: ds, oid, ud =>
    if fget d "_id" = some oid then fsetAll d ud :: ds
    else d :: updateFirst ds oid ud

/-- `PUT /api/activities/{id}`: empty dump short-circuits to
`{"updated": False}` before any store access or id decoding; otherwise
`updated_at` is stamped and one matching record is updated
(`modified_count` is 1 exactly when the matched record changed). -/
def update_activity (aid : String) (p : ActivityUpdate) (nowDT : PyVal)
    (store : List PyFields) : Except HTTPError (List PyFields × Bool) :=
  let ud := updateFields p
  if ud = .nil then .ok (store, false)
  else
    match to_object_id aid with
    | .error e => .error e
    | .ok oid =>
      let ud := fset ud "updated_at" nowDT
      let store' := updateFirst store oid ud
      .ok (store', decide (store' ≠ store))

/-! ## CSV export (`export_csv`)

`csv.writer` with default dialect: fields joined by `,`, rows terminated by
CRLF, a field quoted exactly when it contains a delimiter, a quote or a
line break, with embedded quotes doubled; `None` renders empty and
non-string values render via `str()`. -/

/-- Does a rendered field need quoting under the default dialect? -/
def needsQuote (s : String) : Bool :=
  s.data.any (fun c => c = ',' || c = '"' || c = '\n' || c = '\r')

/-- Double every embedded quote. -/
def dupQuotes (s : String) : String :=
  String.join (s.data.map fun c =>
    if c = '"' then "\"\"" else String.singleton c)

/-- Minimal quoting of one rendered field. -/
def csvQuoteField (s : String) : String :=
  if needsQuote s then "\"" ++ dupQuotes s ++ "\"" else s

/-- Text of one cell value before quoting. -/
def csvRender : Option PyVal → String
  | none => ""
  | some .vNone => ""
  | some (.vStr s) => s
  | some v => pyStr v

/-- One finished cell. -/
def csvField (v : Option PyVal) : String := csvQuoteField (csvRender v)

/-- Comma join of a row's cells. -/
def joinComma : List String → String
  | [] => ""
  | [x] => x
  | x :: xs => x ++ "," ++ joinComma xs

/-- One physical CSV row with the writer's CRLF terminator. -/
def csvLine (cells : List String) : String := joinComma cells ++ "\r\n"

/-- The fixed header row written first. -/
def csvHeaderCells : List String :=
  ["Tanggal", "Nama", "Kategori", "Durasi", "Hasil", "Catatan",
   "Pemasukan", "Pengeluaran", "Kategori Keuangan"]

/-- The nine record fields read by `a.get(…)`, in column order. -/
def csvCols : List String :=
  ["date", "name", "category", "duration", "result", "notes",
   "income", "expense", "finance_category"]

/-- One record's row. -/
def csvRowOf (doc : PyFields) : String :=
  csvLine (csvCols.map (fun k => csvField (fget doc k)))

/-- Concatenation of the successive rows the writer emits. -/
def concatAll : List String → String
  | [] => ""
  | x :: xs => x ++ concatAll xs

/-- The full CSV text built by `export_csv` from the listed records: the
header row first, then one row per record in input order. -/
def toCsv (records : List PyFields) : String :=
  csvLine (csvHeaderCells.map csvQuoteField)
    ++ concatAll (records.map csvRowOf)

/-- `GET /api/export/csv`: the records come from `list_activities` with
only the month/year filters. -/
def export_csv (now : Ymd) (month year : Option Int)
    (store : List PyFields) : String :=
  toCsv (list_activities now month year none none store)

/-- Number of physical lines of a produced text, counted by its `"\n"`
characters (every writer row ends in CRLF, so complete output has one per
line, plus one per line break embedded in a quoted field). -/
def lineCount (s : String) : Nat := s.data.count '\n'

/-- A text with no embedded line break (neither LF nor CR). -/
def noLineBreak (s : String) : Bool :=
  s.data.all (fun c => !(c = '\n' || c = '\r'))

/-! ## Plain-text report export (`export_pdf`) -/

/-- f-string rendering of `a.get(key)` (a missing key prints `None`). -/
def fstrOpt (v : Option PyVal) : String :=
  match v with
  | some w => pyStr w
  | none => "None"

/-- One detail line of the report. -/
def detailLine (a : PyFields) : String :=
  "- " ++ fstrOpt (fget a "date") ++ " | " ++ fstrOpt (fget a "name")
    ++ " | " ++ fstrOpt (fget a "category") ++ " | "
    ++ fstrOpt (fget a "duration") ++ " jam"

/-- `"\n".join(lines)`. -/
def joinNL : List String → String
  | [] => ""
  | [x] => x
  | x :: xs => x ++ "\n" ++ joinNL xs

/-- `GET /api/export/pdf`: composes the recap (which can itself raise) over
the given month/year, then lists the activities returned by
`list_activities` with the same parameters, one detail line each. -/
def export_pdf (now : Ymd) (month year : Option Int)
    (store : List PyFields) : Except String String :=
  match monthly_recap now month year store with
  | .error e => .error e
  | .ok recap =>
    let acts := list_activities now month year none none store
    .ok (joinNL
      (["Laporan Bulanan",
        "Bulan: " ++ toString recap.month ++ "/" ++ toString recap.year,
        recap.summary,
        "",
        "Rincian Kegiatan:"] ++ acts.map detailLine))


theorem daysBeforeMonth_succ (y m : Nat) (hm : 1 ≤ m) :
    daysBeforeMonth y (m + 1) = daysBeforeMonth y m + daysInMonth y m := by
  match m, hm with
  | m + 1, _ => rfl

theorem toOrdinal_next_month (y m : Nat) (hm : 1 ≤ m) :
    toOrdinal ⟨y, m + 1, 1⟩ = toOrdinal ⟨y, m, 1⟩ + daysInMonth y m := by
  simp only [toOrdinal, daysBeforeMonth_succ y m hm]
  omega

theorem daysBeforeMonth_twelve (y : Nat) :
    daysBeforeMonth y 12 = 334 + (if isLeap y then 1 else 0) := by
  cases h : isLeap y <;>
    simp [daysBeforeMonth, daysInMonth, h]

theorem daysBeforeMonth_one (y : Nat) : daysBeforeMonth y 1 = 0 := rfl

theorem toOrdinal_year_roll (y : Nat) :
    toOrdinal ⟨y + 1, 1, 1⟩ = toOrdinal ⟨y, 12, 1⟩ + daysInMonth y 12 := by
  simp only [toOrdinal, daysBeforeMonth_twelve, daysInMonth, leapsBefore,
    daysBeforeMonth_one]
  cases h : isLeap y <;> simp [h] <;> omega

theorem daysInMonth_pos (y m : Nat) : 1 ≤ daysInMonth y m := by
  unfold daysInMonth
  split_ifs <;> omega

/-! ## Dictionary lemmas -/

theorem fget_fset_self (key : String) (w : PyVal) :
    ∀ fs : PyFields, fget (fset fs key w) key = some w
  | .nil => by simp [fset, fget]
  | .cons k v tl => by
    by_cases hk : k = key <;>
      simp [fset, fget, hk, fget_fset_self key w tl]

theorem fget_fdel_self (key : String) :
    ∀ fs : PyFields, fget (fdel fs key) key = none
  | .nil => by simp [fdel, fget]
  | .cons k v tl => by
    by_cases hk : k = key <;>
      simp [fdel, fget, hk, fget_fdel_self key tl]

theorem fget_fdel_ne (key dkey : String) (hne : key ≠ dkey) :
    ∀ fs : PyFields, fget (fdel fs dkey) key = fget fs key
  | .nil => by simp [fdel, fget]
  | .cons k v tl => by
    by_cases hk : k = dkey
    · subst hk
      simp [fdel, fget, fget_fdel_ne key k hne tl, Ne.symm hne]
    · by_cases hk2 : k = key <;>
        simp [fdel, fget, hk, hk2, hne, fget_fdel_ne key dkey hne tl]

theorem fget_mapConvert (key : String) :
    ∀ fs : PyFields, fget (mapConvert fs) key = (fget fs key).map convertVal
  | .nil => by simp [mapConvert, fget]
  | .cons k v tl => by
    by_cases hk : k = key <;>
      simp [mapConvert, fget, hk, fget_mapConvert key tl]

theorem fget_some_ne_nil {fs : PyFields} {key : String} {w : PyVal}
    (h : fget fs key = some w) : fs ≠ .nil := by
  intro hnil
  subst hnil
  simp [fget] at h

/-! ## Serializer lemmas -/

theorem convertVal_vNone : convertVal .vNone = .vNone := by
  simp [convertVal]

theorem convertVal_vStr (s : String) : convertVal (.vStr s) = .vStr s := by
  simp [convertVal]

theorem mapConvert_cons (k : String) (v : PyVal) (tl : PyFields) :
    mapConvert (.cons k v tl) = .cons k (convertVal v) (mapConvert tl) := by
  simp [mapConvert]

theorem serialize_doc_nil : serialize_doc .nil = .nil := by
  simp [serialize_doc]

/-- Wherever a record carried a non-`None` native identifier, the
serialized output no longer has the `_id` key (it was popped). -/
theorem fget_serialize_doc_no_id (doc : PyFields) (a : PyVal)
    (h : fget doc "_id" = some a) (hne : a ≠ .vNone) :
    fget (serialize_doc doc) "_id" = none := by
  cases doc with
  | nil => simp [fget] at h
  | cons k v tl =>
    rw [serialize_doc, h]
    simp only [hne, if_false]
    rw [fget_mapConvert, fget_fdel_self]
    rfl

/-! ## Idempotence of the serializer

Mutual induction mirroring the serializer's recursion: once converted, a
value is a fixed point of the conversion, and a serialized document has no
`_id` left (or only a `None` one), so a second pass is the conversion loop
alone, which is idempotent. -/

mutual
theorem convertVal_idem : ∀ v : PyVal, convertVal (convertVal v) = convertVal v
  | .vNone => by simp [convertVal]
  | .vStr s => by simp [convertVal]
  | .vNum q => by simp [convertVal]
  | .vDate y m d => by simp [convertVal]
  | .vDateTime y m d hh mi ss => by simp [convertVal]
  | .vOid s => by simp [convertVal]
  | .vList xs => by simp [convertVal, convertItems_idem xs]
  | .vDict fs => by simp [convertVal]
termination_by v => (weightV v, 1, sizeOf v)
decreasing_by
  all_goals simp_wf
  all_goals simp only [Prod.lex_def, true_and, weightV, weightL, weightF]
  all_goals omega

theorem convertItems_idem :
    ∀ xs : PyList, convertItems (convertItems xs) = convertItems xs
  | .nil => by simp [convertItems]
  | .cons x tl => by
    simp [convertItems, convertItem_idem x, convertItems_idem tl]
termination_by xs => (weightL xs, 1, sizeOf xs)
decreasing_by
  all_goals simp_wf
  all_goals simp only [Prod.lex_def, true_and, weightV, weightL, weightF]
  all_goals omega

theorem convertItem_idem : ∀ x : PyVal, convertItem (convertItem x) = convertItem x
  | .vNone => by simp [convertItem]
  | .vStr s => by simp [convertItem]
  | .vNum q => by simp [convertItem]
  | .vDate y m d => by simp [convertItem]
  | .vDateTime y m d hh mi ss => by simp [convertItem]
  | .vOid s => by simp [convertItem]
  | .vList xs => by simp [convertItem]
  | .vDict fs => by simp [convertItem, serialize_doc_idem_aux fs]
termination_by x => (weightV x, 0, sizeOf x)
decreasing_by
  all_goals simp_wf
  all_goals simp only [Prod.lex_def, true_and, weightV, weightL, weightF]
  all_goals omega

theorem mapConvert_idem :
    ∀ fs : PyFields, mapConvert (mapConvert fs) = mapConvert fs
  | .nil => by simp [mapConvert]
  | .cons k v tl => by
    simp [mapConvert, convertVal_idem v, mapConvert_idem tl]
termination_by fs => (weightF fs, 2, sizeOf fs)
decreasing_by
  all_goals simp_wf
  all_goals simp only [Prod.lex_def, true_and, weightV, weightL, weightF]
  all_goals omega

theorem serialize_doc_idem_aux :
    ∀ fs : PyFields, serialize_doc (serialize_doc fs) = serialize_doc fs
  | .nil => by simp [serialize_doc]
  | .cons k v tl => by
    cases hid : fget (.cons k v tl) "_id" with
    | none =>
      have hfs : serialize_doc (PyFields.cons k v tl)
          = mapConvert (PyFields.cons k v tl) := by
        rw [serialize_doc, hid]
      have hg : fget (PyFields.cons k (convertVal v) (mapConvert tl)) "_id"
          = none := by
        rw [← mapConvert_cons, fget_mapConvert, hid]
        rfl
      rw [hfs, mapConvert_cons, serialize_doc, hg, ← mapConvert_cons]
      exact mapConvert_idem (PyFields.cons k v tl)
    | some a =>
      by_cases hna : a = .vNone
      · subst hna
        have hfs : serialize_doc (PyFields.cons k v tl)
            = mapConvert (PyFields.cons k v tl) := by
          rw [serialize_doc, hid]
          simp
        have hg : fget (PyFields.cons k (convertVal v) (mapConvert tl)) "_id"
            = some PyVal.vNone := by
          rw [← mapConvert_cons, fget_mapConvert, hid]
          simp [convertVal]
        rw [hfs, mapConvert_cons, serialize_doc, hg]
        simp only [if_pos rfl, ← mapConvert_cons]
        exact mapConvert_idem (PyFields.cons k v tl)
      · have hfs : serialize_doc (PyFields.cons k v tl)
            = mapConvert
                (fdel (fset (PyFields.cons k v tl) "id"
                  (PyVal.vStr (pyStr a))) "_id") := by
          rw [serialize_doc, hid]
          simp [hna]
        have hgid :
            fget (mapConvert (fdel (fset (PyFields.cons k v tl) "id"
                (PyVal.vStr (pyStr a))) "_id")) "id"
              = some (PyVal.vStr (pyStr a)) := by
          rw [fget_mapConvert, fget_fdel_ne "id" "_id" (by decide),
            fget_fset_self]
          simp [convertVal]
        have hgnid :
            fget (mapConvert (fdel (fset (PyFields.cons k v tl) "id"
                (PyVal.vStr (pyStr a))) "_id")) "_id" = none := by
          rw [fget_mapConvert, fget_fdel_self]
          rfl
        rcases hg : mapConvert (fdel (fset (PyFields.cons k v tl) "id"
            (PyVal.vStr (pyStr a))) "_id") with _ | ⟨k', v', tl'⟩
        · exact absurd hg (fget_some_ne_nil hgid)
        · rw [hg] at hgnid
          rw [hfs, hg, serialize_doc, hgnid, ← hg]
          exact mapConvert_idem (fdel (fset (PyFields.cons k v tl) "id"
            (PyVal.vStr (pyStr a))) "_id")
termination_by fs => (weightF fs, 3, sizeOf fs)
decreasing_by
  all_goals simp_wf
  all_goals
    first
    | (simp only [Prod.lex_def, true_and, weightV, weightL, weightF]
       omega)
    | (have h2 := weightF_fset_le "id" (pyStr a) (PyFields.cons k v tl)
       have h1 := weightF_fdel_le "_id"
         (fset (PyFields.cons k v tl) "id" (PyVal.vStr (pyStr a)))
       simp only [Prod.lex_def, true_and]
       omega)
end

/-! ## Claim C5 -/

/-- **C5** (confirmed): the document serializer is idempotent — for every
record `r`, `serialize(serialize(r)) = serialize(r)`; an already-serialized
record has no native identifier field left and its dates are strings, which
the conversion step leaves untouched. -/
theorem serialize_doc_idempotent :
    ∀ doc : PyFields, serialize_doc (serialize_doc doc) = serialize_doc doc :=
  serialize_doc_idem_aux

/-! ## Claim C2 -/

/-- **C2** counterexample: the claim says the serializer operates on a copy
and the original record is unchanged after `serialize(record)` returns.
For the concrete stored record `{_id: ObjectId(…), date: date(2024, 3, 5)}`
the source mutates the record in place (the returned object IS the
argument), so after the call the caller's record is not unchanged: its
native identifier field is gone and its date is a string. -/
theorem serialize_doc_mutates_counterexample :
    serialize_doc_inputAfter
        (.cons "_id" (.vOid "64b2f0e1a2c3d4e5f6a7b8c9")
          (.cons "date" (.vDate 2024 3 5) .nil))
      ≠ .cons "_id" (.vOid "64b2f0e1a2c3d4e5f6a7b8c9")
          (.cons "date" (.vDate 2024 3 5) .nil) := by
  simp +decide [serialize_doc_inputAfter, serialize_doc, mapConvert,
    convertVal, fget, fset, fdel, pyStr]

/-- **C2** (amended): the serializer mutates the record in place, not a
copy: after `serialize(record)` returns, the caller's record holds exactly
the serialized value — in particular any record that carried a non-`None`
native identifier field has lost it. -/
theorem serialize_doc_inplace (doc : PyFields) (a : PyVal)
    (h : fget doc "_id" = some a) (hne : a ≠ .vNone) :
    serialize_doc_inputAfter doc = serialize_doc doc ∧
    fget (serialize_doc_inputAfter doc) "_id" = none :=
  ⟨rfl, fget_serialize_doc_no_id doc a h hne⟩

/-- Witness for C2's amended theorem at a concrete record. -/
theorem serialize_doc_inplace_witness :
    fget (.cons "_id" (.vOid "64b2f0e1a2c3d4e5f6a7b8c9") .nil) "_id"
        = some (.vOid "64b2f0e1a2c3d4e5f6a7b8c9") ∧
    (PyVal.vOid "64b2f0e1a2c3d4e5f6a7b8c9" ≠ .vNone) ∧
    (serialize_doc_inputAfter
          (.cons "_id" (.vOid "64b2f0e1a2c3d4e5f6a7b8c9") .nil)
        = serialize_doc (.cons "_id" (.vOid "64b2f0e1a2c3d4e5f6a7b8c9") .nil) ∧
      fget (serialize_doc_inputAfter
          (.cons "_id" (.vOid "64b2f0e1a2c3d4e5f6a7b8c9") .nil)) "_id"
        = none) :=
  ⟨by decide, by decide,
    serialize_doc_inplace
      (.cons "_id" (.vOid "64b2f0e1a2c3d4e5f6a7b8c9") .nil)
      (.vOid "64b2f0e1a2c3d4e5f6a7b8c9") (by decide) (by decide)⟩

/-! ## Claim C7 -/

/-- **C7** (confirmed): every identifier string that is not a well-formed
native identifier (wrong length or character set) makes decoding fail, and
the request is rejected with a client error (4xx), never a server error. -/
theorem malformed_id_client_error (s : String)
    (h : isValidObjectIdStr s = false) :
    ∃ e : HTTPError, to_object_id s = .error e ∧
      400 ≤ e.status ∧ e.status < 500 := by
  refine ⟨⟨400, "Invalid ID format"⟩, ?_, by norm_num, by norm_num⟩
  simp [to_object_id, h]

/-- Witness for C7 at the malformed identifier `"zzz"`. -/
theorem malformed_id_client_error_witness :
    isValidObjectIdStr "zzz" = false ∧
    ∃ e : HTTPError, to_object_id "zzz" = .error e ∧
      400 ≤ e.status ∧ e.status < 500 :=
  ⟨by decide, malformed_id_client_error "zzz" (by decide)⟩

/-! ## Claim C8 -/

/-- **C8** (confirmed): a partial-update request whose payload supplies no
recognized fields succeeds with `updated = false`, leaves the store (and
every record's `updated_at`) untouched, and raises no error — the handler
returns before decoding the id or touching the store. -/
theorem update_no_fields_noop (aid : String) (p : ActivityUpdate)
    (nowDT : PyVal) (store : List PyFields)
    (h : updateFields p = .nil) :
    update_activity aid p nowDT store = .ok (store, false) := by
  simp [update_activity, h]

/-- Witness for C8: the all-absent payload on an arbitrary concrete call. -/
theorem update_no_fields_noop_witness :
    updateFields {} = .nil ∧
    update_activity "not-even-a-valid-id" {} PyVal.vNone [] = .ok ([], false) :=
  ⟨rfl, update_no_fields_noop "not-even-a-valid-id" {} PyVal.vNone [] rfl⟩

/-! ## Claim C1 -/

/-- **C1** counterexample: the claim says the dashboard and recap
operations also catch a failing first-day construction and proceed with no
date condition.  At `month = 13` both operations propagate the failure and
the whole request fails instead. -/
theorem dashboard_recap_month13_counterexample :
    dashboard ⟨2024, 6, 15⟩ (some 13) (some 2024) [] = .error "ValueError" ∧
    monthly_recap ⟨2024, 6, 15⟩ (some 13) (some 2024) [] =
      .error "ValueError" := by
  constructor <;> rfl

/-- **C1** (amended): when the supplied month/year make first-day
construction fail, only the filtered-list operation fails open — it
behaves exactly as if no month/year had been supplied (no date condition);
the dashboard and recap operations propagate the failure and the request
fails. -/
theorem window_failure_fails_open_only_for_list (now : Ymd)
    (month year : Option Int) (category search : Option String)
    (store : List PyFields)
    (hfail : resolveWindow (orDefault month now.m) (orDefault year now.y)
      = none) :
    list_activities now month year category search store
        = list_activities now none none category search store ∧
    dashboard now month year store = .error "ValueError" ∧
    monthly_recap now month year store = .error "ValueError" := by
  have hends : ∀ s : Ymd,
      mkDate (orDefault year now.y) (orDefault month now.m) 1 = some s →
      (if orDefault month now.m = 12 then
          mkDate (orDefault year now.y + 1) 1 1
        else mkDate (orDefault year now.y) (orDefault month now.m + 1) 1)
        = none := by
    intro s h1
    by_cases h12 : orDefault month now.m = 12
    · rw [if_pos h12]
      cases h2 : mkDate (orDefault year now.y + 1) 1 1 with
      | none => rfl
      | some e =>
        rw [resolveWindow, h1] at hfail
        simp [h12, h2] at hfail
    · rw [if_neg h12]
      cases h2 : mkDate (orDefault year now.y)
          (orDefault month now.m + 1) 1 with
      | none => rfl
      | some e =>
        rw [resolveWindow, h1] at hfail
        simp [h12, h2] at hfail
  refine ⟨?_, ?_, ?_⟩
  · simp [list_activities, get_documents, buildListQuery, hfail, truthyInt]
  · cases h1 : mkDate (orDefault year now.y) (orDefault month now.m) 1 with
    | none => simp [dashboard, h1]
    | some s => simp [dashboard, h1, hends s h1]
  · cases h1 : mkDate (orDefault year now.y) (orDefault month now.m) 1 with
    | none => simp [monthly_recap, h1]
    | some s => simp [monthly_recap, h1, hends s h1]

/-- Witness for C1's amended theorem at `month = 13`, `year = 2024`. -/
theorem window_failure_fails_open_only_for_list_witness :
    resolveWindow (orDefault (some 13) 6) (orDefault (some 2024) 2024)
        = none ∧
    (list_activities ⟨2024, 6, 15⟩ (some 13) (some 2024) none none
          [PyFields.cons "name" (.vStr "Rapat") .nil]
        = list_activities ⟨2024, 6, 15⟩ none none none none
          [PyFields.cons "name" (.vStr "Rapat") .nil] ∧
      dashboard ⟨2024, 6, 15⟩ (some 13) (some 2024)
          [PyFields.cons "name" (.vStr "Rapat") .nil] = .error "ValueError" ∧
      monthly_recap ⟨2024, 6, 15⟩ (some 13) (some 2024)
          [PyFields.cons "name" (.vStr "Rapat") .nil] =
        .error "ValueError") :=
  ⟨by decide,
    window_failure_fails_open_only_for_list ⟨2024, 6, 15⟩ (some 13)
      (some 2024) none none [PyFields.cons "name" (.vStr "Rapat") .nil]
      (by decide)⟩

/-! ## Claim C3 -/

/-- **C3** counterexample: the claim promises a window for every month in
1–12 and every representable year, but at month 12 of year 9999 (a
representable year) the end-of-window construction `datetime(y + 1, 1, 1)`
raises, and the resolver yields no window at all. -/
theorem resolveWindow_dec9999_counterexample :
    resolveWindow 12 9999 = none := by decide

/-- **C3** (amended): for every month in 1–12 and every representable year
whose successor month is also constructible (that is, excluding only
December 9999), the resolver returns `start` = first day of the month,
`end` = first day of the next month (January of `year + 1` for December),
with `start < end` and `end - start` equal to the number of days in that
month. -/
theorem month_window_correct (m y : Int) (h1 : 1 ≤ m) (h2 : m ≤ 12)
    (h3 : 1 ≤ y) (h4 : y ≤ 9999) (h5 : m = 12 → y ≤ 9998) :
    ∃ s e : Ymd, resolveWindow m y = some (s, e) ∧
      s = ⟨y.toNat, m.toNat, 1⟩ ∧
      e = (if m = 12 then (⟨y.toNat + 1, 1, 1⟩ : Ymd)
           else ⟨y.toNat, m.toNat + 1, 1⟩) ∧
      toOrdinal s < toOrdinal e ∧
      toOrdinal e - toOrdinal s = daysInMonth y.toNat m.toNat := by
  have hs : mkDate y m 1 = some ⟨y.toNat, m.toNat, 1⟩ := by
    unfold mkDate
    rw [if_pos]
    · rfl
    · exact ⟨h3, h4, h1, h2, by norm_num,
        by have := daysInMonth_pos y.toNat m.toNat; omega⟩
  by_cases h12 : m = 12
  · subst h12
    have he : mkDate (y + 1) 1 1 = some ⟨y.toNat + 1, 1, 1⟩ := by
      unfold mkDate
      rw [if_pos]
      · rw [show (y + 1).toNat = y.toNat + 1 from by omega]
        rfl
      · refine ⟨by omega, by omega, by norm_num, by norm_num, by norm_num, ?_⟩
        have := daysInMonth_pos (y + 1).toNat (Int.toNat 1)
        omega
    have hroll := toOrdinal_year_roll y.toNat
    have hpos := daysInMonth_pos y.toNat 12
    refine ⟨⟨y.toNat, 12, 1⟩, ⟨y.toNat + 1, 1, 1⟩, ?_, ?_, ?_, ?_, ?_⟩
    · rw [resolveWindow, hs]
      simp [he]
    · rfl
    · rw [if_pos rfl]
    · omega
    · rw [show Int.toNat 12 = 12 from rfl]
      omega
  · have he : mkDate y (m + 1) 1 = some ⟨y.toNat, m.toNat + 1, 1⟩ := by
      unfold mkDate
      rw [if_pos]
      · rw [show (m + 1).toNat = m.toNat + 1 from by omega]
        rfl
      · refine ⟨h3, h4, by omega, by omega, by norm_num, ?_⟩
        have hpos := daysInMonth_pos y.toNat (m + 1).toNat
        omega
    have hm1 : 1 ≤ m.toNat := by omega
    have hnext := toOrdinal_next_month y.toNat m.toNat hm1
    have hpos := daysInMonth_pos y.toNat m.toNat
    refine ⟨⟨y.toNat, m.toNat, 1⟩, ⟨y.toNat, m.toNat + 1, 1⟩, ?_, rfl, ?_, ?_, ?_⟩
    · rw [resolveWindow, hs]
      simp [he, h12]
    · rw [if_neg h12]
    · omega
    · omega

/-- Witness for C3's amended theorem at February 2024 (a leap year:
29 days). -/
theorem month_window_correct_witness :
    (1 ≤ (2 : Int) ∧ (2 : Int) ≤ 12 ∧ 1 ≤ (2024 : Int) ∧
      (2024 : Int) ≤ 9999) ∧
    (∃ s e : Ymd, resolveWindow 2 2024 = some (s, e) ∧
      s = ⟨2024, 2, 1⟩ ∧
      e = (if (2 : Int) = 12 then (⟨2025, 1, 1⟩ : Ymd) else ⟨2024, 3, 1⟩) ∧
      toOrdinal s < toOrdinal e ∧
      toOrdinal e - toOrdinal s = daysInMonth 2024 2) :=
  ⟨⟨by norm_num, by norm_num, by norm_num, by norm_num⟩,
    month_window_correct 2 2024 (by norm_num) (by norm_num) (by norm_num)
      (by norm_num) (fun h => absurd h (by norm_num))⟩

/-! ## Claim C4 -/

/-- On a pattern with no `.` the regex matcher is exactly a caseless prefix
test. -/
theorem matchHere_literal :
    ∀ ps cs : List Char, (∀ p ∈ ps, p ≠ '.') →
      matchHere ps cs
        = decide ((ps.map Char.toLower) <+: (cs.map Char.toLower))
  | [], cs, _ => by simp [matchHere]
  | p :: ps, [], h => by simp [matchHere]
  | p :: ps, c :: cs, h => by
    have hp : p ≠ '.' := h p (by simp)
    have ih := matchHere_literal ps cs (fun q hq => h q (by simp [hq]))
    simp [matchHere, charMatch, hp, ih, List.cons_prefix_cons]

/-- On a pattern with no `.` the unanchored search is exactly a caseless
infix (substring) test. -/
theorem searchFrom_literal (ps : List Char) (h : ∀ p ∈ ps, p ≠ '.') :
    ∀ cs : List Char,
      searchFrom ps cs
        = decide ((ps.map Char.toLower) <:+: (cs.map Char.toLower))
  | [] => by
    simp [searchFrom, matchHere_literal ps [] h, List.infix_nil,
      List.prefix_nil]
  | c :: cs => by
    simp [searchFrom, matchHere_literal ps (c :: cs) h,
      searchFrom_literal ps h cs, List.infix_cons_iff]

/-- A metacharacter-free search string contains no `.`. -/
theorem isRegexLiteral_no_dot {pat : String}
    (h : isRegexLiteral pat = true) : ∀ p ∈ pat.data, p ≠ '.' := by
  intro p hp
  have := (List.all_eq_true.mp h) p hp
  intro hdot
  subst hdot
  simp [isRegexMeta] at this

/-- **C4** counterexample: the search string is handed to the store as a
regex pattern, not a literal.  The one-character search `"."` makes the
constructed filter match the record `{name: "x"}`, although `"."` does not
occur as a literal substring of any of its fields. -/
theorem search_regex_not_literal_counterexample :
    matchesQuery
        (buildListQuery ⟨2024, 6, 15⟩ none none none (some "."))
        (.cons "name" (.vStr "x") .nil) = true ∧
    claimedSearchMatch "." (.cons "name" (.vStr "x") .nil) = false := by
  constructor <;> decide

/-- **C4** (amended): the search string is interpreted as a
case-insensitive regular expression; for every non-empty search string
containing no regex metacharacter, the constructed filter matches a record
exactly when the search string occurs case-insensitively as a literal
substring of at least one of `name`, `result`, `notes`. -/
theorem search_literal_iff_substring (pat : String)
    (hlit : isRegexLiteral pat = true) (hne : pat ≠ "") (now : Ymd)
    (doc : PyFields) :
    matchesQuery (buildListQuery now none none none (some pat)) doc
      = claimedSearchMatch pat doc := by
  have hdot := isRegexLiteral_no_dot hlit
  have hfield : ∀ o : Option PyVal,
      fieldRegexMatch pat o = fieldSubstrMatch pat o := by
    intro o
    rcases o with _ | v
    · simp [fieldRegexMatch, fieldSubstrMatch]
    · cases v <;>
        simp [fieldRegexMatch, fieldSubstrMatch, iregexSearch,
          substrCaseless, searchFrom_literal pat.data hdot]
  simp [matchesQuery, buildListQuery, truthyInt, hne, claimedSearchMatch,
    hfield]

/-- Witness for C4's amended theorem: the literal search `"rapat"` against
a record whose `name` contains it with different letter case. -/
theorem search_literal_iff_substring_witness :
    isRegexLiteral "rapat" = true ∧ "rapat" ≠ "" ∧
    matchesQuery
        (buildListQuery ⟨2024, 6, 15⟩ none none none (some "rapat"))
        (.cons "name" (.vStr "Notulen RAPAT maret") .nil)
      = claimedSearchMatch "rapat"
        (.cons "name" (.vStr "Notulen RAPAT maret") .nil) :=
  ⟨by decide, by decide,
    search_literal_iff_substring "rapat" (by decide) (by decide)
      ⟨2024, 6, 15⟩ (.cons "name" (.vStr "Notulen RAPAT maret") .nil)⟩

/-! ## Claim C6 -/

theorem sumCounts_bumpGroup (k : PyVal) :
    ∀ acc : List (PyVal × Nat), sumCounts (bumpGroup acc k) = sumCounts acc + 1 := by
  intro acc
  induction acc with
  | nil => simp [bumpGroup, sumCounts]
  | cons kn tl ih =>
    obtain ⟨k', n⟩ := kn
    by_cases hk : k' = k <;> simp [bumpGroup, hk, sumCounts] at ih ⊢ <;> omega

theorem sumCounts_groupFold (docs : List PyFields) :
    ∀ acc : List (PyVal × Nat),
      sumCounts (docs.foldl (fun a d => bumpGroup a (catOf d)) acc)
        = sumCounts acc + docs.length := by
  induction docs with
  | nil => intro acc; simp
  | cons d tl ih =>
    intro acc
    simp only [List.foldl_cons, ih (bumpGroup acc (catOf d)),
      sumCounts_bumpGroup, List.length_cons]
    omega

theorem sumCounts_groupByCat (docs : List PyFields) :
    sumCounts (groupByCat docs) = docs.length := by
  have := sumCounts_groupFold docs []
  simpa [groupByCat, sumCounts] using this

theorem bumpGroup_keys (k : PyVal) :
    ∀ acc : List (PyVal × Nat),
      (bumpGroup acc k).map Prod.fst
        = if k ∈ acc.map Prod.fst then acc.map Prod.fst
          else acc.map Prod.fst ++ [k] := by
  intro acc
  induction acc with
  | nil => simp [bumpGroup]
  | cons kn tl ih =>
    obtain ⟨k', n⟩ := kn
    by_cases hk : k' = k
    · simp [bumpGroup, hk]
    · by_cases hmem : k ∈ tl.map Prod.fst <;>
        simp [bumpGroup, hk, ih, hmem, Ne.symm hk]

theorem groupFold_keys_nodup (docs : List PyFields) :
    ∀ acc : List (PyVal × Nat), (acc.map Prod.fst).Nodup →
      ((docs.foldl (fun a d => bumpGroup a (catOf d)) acc).map Prod.fst).Nodup := by
  induction docs with
  | nil => intro acc h; simpa using h
  | cons d tl ih =>
    intro acc h
    apply ih
    rw [bumpGroup_keys]
    split_ifs with hmem
    · exact h
    · simp [List.nodup_append, h, hmem]

theorem groupByCat_keys_nodup (docs : List PyFields) :
    ((groupByCat docs).map Prod.fst).Nodup :=
  groupFold_keys_nodup docs [] (by simp)

theorem groupFold_keys_from_docs (docs : List PyFields) :
    ∀ acc : List (PyVal × Nat),
      ∀ k ∈ (docs.foldl (fun a d => bumpGroup a (catOf d)) acc).map Prod.fst,
        k ∈ acc.map Prod.fst ∨ ∃ d ∈ docs, catOf d = k := by
  induction docs with
  | nil => intro acc k hk; exact Or.inl hk
  | cons d tl ih =>
    intro acc k hk
    rcases ih (bumpGroup acc (catOf d)) k hk with hacc | ⟨d', hd', hk'⟩
    · rw [bumpGroup_keys] at hacc
      split_ifs at hacc with hmem
      · exact Or.inl hacc
      · rcases List.mem_append.mp hacc with h | h
        · exact Or.inl h
        · exact Or.inr ⟨d, by simp, (List.mem_singleton.mp h).symm⟩
    · exact Or.inr ⟨d', by simp [hd'], hk'⟩

theorem groupByCat_keys_from_docs (docs : List PyFields) :
    ∀ k ∈ (groupByCat docs).map Prod.fst, ∃ d ∈ docs, catOf d = k := by
  intro k hk
  rcases groupFold_keys_from_docs docs [] k hk with h | h
  · simp at h
  · exact h

theorem pdictSet_fresh (k : PyVal) (n : Nat) :
    ∀ acc : List (PyVal × Nat), k ∉ acc.map Prod.fst →
      pdictSet acc k n = acc ++ [(k, n)] := by
  intro acc
  induction acc with
  | nil => simp [pdictSet]
  | cons kn tl ih =>
    obtain ⟨k', n'⟩ := kn
    intro hk
    simp only [List.map_cons, List.mem_cons] at hk
    push_neg at hk
    simp [pdictSet, Ne.symm hk.1, ih hk.2]

theorem perCategory_fold_id (groups : List (PyVal × Nat)) :
    ∀ acc : List (PyVal × Nat),
      (groups.map Prod.fst).Nodup →
      (∀ k ∈ groups.map Prod.fst, relabelCat k = k) →
      (∀ k ∈ groups.map Prod.fst, k ∉ acc.map Prod.fst) →
      groups.foldl (fun a kn => pdictSet a (relabelCat kn.1) kn.2) acc
        = acc ++ groups := by
  induction groups with
  | nil => intro acc _ _ _; simp
  | cons kn tl ih =>
    obtain ⟨k0, n0⟩ := kn
    intro acc hnd hid hdisj
    have hk0 : relabelCat k0 = k0 := hid k0 (by simp)
    have hfresh : k0 ∉ acc.map Prod.fst := hdisj k0 (by simp)
    have hnd' : (k0 :: tl.map Prod.fst).Nodup := by simpa using hnd
    simp only [List.foldl_cons, hk0, pdictSet_fresh k0 n0 acc hfresh]
    rw [ih (acc ++ [(k0, n0)])]
    · simp
    · exact (List.nodup_cons.mp hnd').2
    · intro k hk
      exact hid k (by simp [hk])
    · intro k hk
      simp only [List.map_append, List.mem_append]
      push_neg
      constructor
      · exact fun hka => hdisj k (by simp [hk]) hka
      · intro hkk
        simp at hkk
        subst hkk
        exact (List.nodup_cons.mp hnd').1 hk

theorem perCategoryOf_id (groups : List (PyVal × Nat))
    (hnd : (groups.map Prod.fst).Nodup)
    (hid : ∀ k ∈ groups.map Prod.fst, relabelCat k = k) :
    perCategoryOf groups = groups := by
  have := perCategory_fold_id groups [] hnd hid (by simp)
  simpa [perCategoryOf] using this

/-- **C6** counterexample: the claim's precondition (non-null categories)
is met by a window holding one record with category `""` and one with
category `"unknown"`, yet `total_activities = 2` while the per-category
counts sum to 1: the empty string is falsy, is relabeled `"unknown"`, and
collides with the genuine `"unknown"` key in the dict comprehension. -/
theorem dashboard_totalCount_mismatch_counterexample :
    ∃ r : DashResult,
      dashboard ⟨2024, 6, 15⟩ (some 3) (some 2024)
          [.cons "date" (.vDate 2024 3 5)
             (.cons "category" (.vStr "") .nil),
           .cons "date" (.vDate 2024 3 6)
             (.cons "category" (.vStr "unknown") .nil)]
        = .ok r ∧
      r.total_activities = 2 ∧
      r.per_category = [(.vStr "unknown", 1)] ∧
      sumCounts r.per_category = 1 ∧
      catOf (.cons "date" (.vDate 2024 3 5)
          (.cons "category" (.vStr "") .nil)) ≠ .vNone ∧
      catOf (.cons "date" (.vDate 2024 3 6)
          (.cons "category" (.vStr "unknown") .nil)) ≠ .vNone := by
  refine ⟨_, rfl, ?_, ?_, ?_, ?_, ?_⟩ <;> decide

/-- **C6** (amended): for every window `[start, end)` over a collection in
which every in-window record has a truthy category (non-null and, in
particular, not the empty string), the independently computed total count
equals the sum of the reported per-category counts. -/
theorem aggregator_totalCount_eq_sum (s e : Ymd) (store : List PyFields)
    (h : ∀ doc ∈ store, dateInWindow (s, e) (fget doc "date") = true →
      pyFalsy (catOf doc) = false) :
    (store.filter (fun d => dateInWindow (s, e) (fget d "date"))).length
      = sumCounts (perCategoryOf (groupByCat
          (store.filter (fun d => dateInWindow (s, e) (fget d "date"))))) := by
  set docs := store.filter (fun d => dateInWindow (s, e) (fget d "date"))
    with hdocs
  have hid : ∀ k ∈ (groupByCat docs).map Prod.fst, relabelCat k = k := by
    intro k hk
    obtain ⟨d, hd, hcat⟩ := groupByCat_keys_from_docs docs k hk
    rw [hdocs] at hd
    rcases List.mem_filter.mp hd with ⟨hmem, hwin⟩
    have := h d hmem (by simpa using hwin)
    rw [← hcat]
    simp [relabelCat, this]
  rw [perCategoryOf_id (groupByCat docs) (groupByCat_keys_nodup docs) hid,
    sumCounts_groupByCat]

/-- Witness for C6's amended theorem: a March 2024 window over two records
with the truthy categories `"administrasi"` and `"akademik"`. -/
theorem aggregator_totalCount_eq_sum_witness :
    (∀ doc ∈ [PyFields.cons "date" (.vDate 2024 3 5)
          (.cons "category" (.vStr "administrasi") .nil),
        PyFields.cons "date" (.vDate 2024 3 9)
          (.cons "category" (.vStr "akademik") .nil)],
      dateInWindow (⟨2024, 3, 1⟩, ⟨2024, 4, 1⟩) (fget doc "date") = true →
      pyFalsy (catOf doc) = false) ∧
    (([PyFields.cons "date" (.vDate 2024 3 5)
          (.cons "category" (.vStr "administrasi") .nil),
       PyFields.cons "date" (.vDate 2024 3 9)
          (.cons "category" (.vStr "akademik") .nil)].filter
        (fun d => dateInWindow (⟨2024, 3, 1⟩, ⟨2024, 4, 1⟩)
          (fget d "date"))).length
      = sumCounts (perCategoryOf (groupByCat
          ([PyFields.cons "date" (.vDate 2024 3 5)
              (.cons "category" (.vStr "administrasi") .nil),
            PyFields.cons "date" (.vDate 2024 3 9)
              (.cons "category" (.vStr "akademik") .nil)].filter
            (fun d => dateInWindow (⟨2024, 3, 1⟩, ⟨2024, 4, 1⟩)
              (fget d "date")))))) :=
  ⟨by decide,
    aggregator_totalCount_eq_sum ⟨2024, 3, 1⟩ ⟨2024, 4, 1⟩
      [PyFields.cons "date" (.vDate 2024 3 5)
          (.cons "category" (.vStr "administrasi") .nil),
        PyFields.cons "date" (.vDate 2024 3 9)
          (.cons "category" (.vStr "akademik") .nil)]
      (by decide)⟩

/-! ## Claim C9 -/

theorem lineCount_append (a b : String) :
    lineCount (a ++ b) = lineCount a + lineCount b := by
  simp [lineCount, String.data_append, List.count_append]

theorem lineCount_of_noLineBreak {s : String} (h : noLineBreak s = true) :
    lineCount s = 0 := by
  rw [lineCount, List.count_eq_zero]
  intro hmem
  have := (List.all_eq_true.mp h) '\n' hmem
  simp at this

theorem lineCount_joinComma :
    ∀ cells : List String, (∀ c ∈ cells, noLineBreak c = true) →
      lineCount (joinComma cells) = 0
  | [], _ => by decide
  | [x], h => lineCount_of_noLineBreak (h x (by simp))
  | x :: y :: tl, h => by
    have hx := lineCount_of_noLineBreak (h x (by simp))
    have ih := lineCount_joinComma (y :: tl) (fun c hc => h c (by simp [hc]))
    simp only [joinComma, lineCount_append]
    rw [hx, ih]
    decide

theorem lineCount_csvRowOf (doc : PyFields)
    (h : ∀ k ∈ csvCols, noLineBreak (csvField (fget doc k)) = true) :
    lineCount (csvRowOf doc) = 1 := by
  have hc : ∀ c ∈ csvCols.map (fun k => csvField (fget doc k)),
      noLineBreak c = true := by
    intro c hc
    obtain ⟨k, hk, rfl⟩ := List.mem_map.mp hc
    exact h k hk
  rw [csvRowOf, csvLine, lineCount_append,
    lineCount_joinComma _ hc]
  decide

theorem lineCount_rows :
    ∀ records : List PyFields,
      (∀ doc ∈ records, ∀ k ∈ csvCols,
        noLineBreak (csvField (fget doc k)) = true) →
      lineCount (concatAll (records.map csvRowOf)) = records.length
  | [], _ => by decide
  | d :: tl, h => by
    have hd := lineCount_csvRowOf d (h d (by simp))
    have ih := lineCount_rows tl (fun doc hdoc => h doc (by simp [hdoc]))
    simp only [List.map_cons, concatAll, lineCount_append, List.length_cons]
    omega

/-- **C9** counterexample: a single record whose `name` holds an embedded
line break produces a quoted field spanning two physical lines, so the
export has 3 lines, not N + 1 = 2. -/
theorem csv_embedded_newline_counterexample :
    lineCount (toCsv [.cons "name" (.vStr "a\nb") .nil]) = 3 ∧
    [PyFields.cons "name" (.vStr "a\nb") .nil].length + 1 = 2 := by
  constructor <;> decide

/-- **C9** (amended): for every list of N serialized activity records whose
nine rendered cells are all free of line breaks, the CSV export produces
exactly N + 1 physical lines: the fixed 9-column header followed by one row
per record in input order; a cell holding a line break is quoted but still
adds physical lines. -/
theorem csv_lines (records : List PyFields)
    (h : ∀ doc ∈ records, ∀ k ∈ csvCols,
      noLineBreak (csvField (fget doc k)) = true) :
    lineCount (toCsv records) = records.length + 1 := by
  rw [toCsv, lineCount_append, lineCount_rows records h]
  have hhdr : lineCount (csvLine (csvHeaderCells.map csvQuoteField)) = 1 := by
    decide
  omega

/-- Witness for C9's amended theorem on one line-break-free record. -/
theorem csv_lines_witness :
    (∀ doc ∈ [PyFields.cons "date" (.vStr "2024-03-05")
        (.cons "name" (.vStr "Rapat") .nil)],
      ∀ k ∈ csvCols, noLineBreak (csvField (fget doc k)) = true) ∧
    lineCount (toCsv [PyFields.cons "date" (.vStr "2024-03-05")
        (.cons "name" (.vStr "Rapat") .nil)])
      = [PyFields.cons "date" (.vStr "2024-03-05")
          (.cons "name" (.vStr "Rapat") .nil)].length + 1 :=
  ⟨by decide,
    csv_lines [PyFields.cons "date" (.vStr "2024-03-05")
        (.cons "name" (.vStr "Rapat") .nil)] (by decide)⟩

/-! ## Claim C10 -/

/-- **C10** (confirmed): with month and year both absent, the plain-text
report's recap header is composed over the current UTC month (both default
to `now`), while the detail listing applies no date filter at all — the
listing equals the serialization of every stored activity, of any date,
not only those of the month the header summarizes. -/
theorem export_pdf_unfiltered_details (now : Ymd) (store : List PyFields)
    (h1 : 1 ≤ now.m) (h2 : now.m ≤ 12) (h3 : 1 ≤ now.y) (h4 : now.y ≤ 9999)
    (h5 : now.m = 12 → now.y ≤ 9998) :
    list_activities now none none none none store
        = store.map serialize_doc ∧
    ∃ r : RecapResult, monthly_recap now none none store = .ok r ∧
      r.month = (now.m : Int) ∧ r.year = (now.y : Int) ∧
      export_pdf now none none store = .ok (joinNL
        (["Laporan Bulanan",
          "Bulan: " ++ toString r.month ++ "/" ++ toString r.year,
          r.summary, "", "Rincian Kegiatan:"]
          ++ (store.map serialize_doc).map detailLine)) := by
  have hlist : list_activities now none none none none store
      = store.map serialize_doc := by
    rw [list_activities, get_documents,
      show List.filter
          (matchesQuery (buildListQuery now none none none none)) store
        = store from List.filter_eq_self.mpr (fun a _ => rfl)]
  have hs : mkDate (now.y : Int) (now.m : Int) 1
      = some ⟨now.y, now.m, 1⟩ := by
    unfold mkDate
    rw [if_pos]
    · simp
    · refine ⟨by omega, by omega, by omega, by omega, by norm_num, ?_⟩
      have := daysInMonth_pos (now.y : Int).toNat (now.m : Int).toNat
      omega
  have hwin : ∃ e : Ymd,
      (if (now.m : Int) = 12 then mkDate ((now.y : Int) + 1) 1 1
        else mkDate (now.y : Int) ((now.m : Int) + 1) 1) = some e := by
    by_cases hm12 : now.m = 12
    · refine ⟨⟨now.y + 1, 1, 1⟩, ?_⟩
      rw [if_pos (by exact_mod_cast hm12)]
      unfold mkDate
      rw [if_pos]
      · simp [Ymd.mk.injEq] <;> omega
      · refine ⟨by omega, by omega, by norm_num, by norm_num, by norm_num, ?_⟩
        have := daysInMonth_pos ((now.y : Int) + 1).toNat (Int.toNat 1)
        omega
    · refine ⟨⟨now.y, now.m + 1, 1⟩, ?_⟩
      rw [if_neg (by exact_mod_cast hm12)]
      unfold mkDate
      rw [if_pos]
      · simp [Ymd.mk.injEq] <;> omega
      · refine ⟨by omega, by omega, by omega, by omega, by norm_num, ?_⟩
        have := daysInMonth_pos (now.y : Int).toNat
          ((now.m : Int) + 1).toNat
        omega
  obtain ⟨e, he⟩ := hwin
  have hrecap : monthly_recap now none none store = .ok
      { month := (now.m : Int), year := (now.y : Int),
        categories := perCategoryOf (groupByCat (store.filter
          (fun d => dateInWindow (⟨now.y, now.m, 1⟩, e) (fget d "date")))),
        income := sumIncome (store.filter
          (fun d => dateInWindow (⟨now.y, now.m, 1⟩, e) (fget d "date"))),
        expense := sumExpense (store.filter
          (fun d => dateInWindow (⟨now.y, now.m, 1⟩, e) (fget d "date"))),
        summary := recapSummary (now.m : Int) (now.y : Int)
          (perCategoryOf (groupByCat (store.filter
            (fun d => dateInWindow (⟨now.y, now.m, 1⟩, e) (fget d "date")))))
          (sumIncome (store.filter
            (fun d => dateInWindow (⟨now.y, now.m, 1⟩, e) (fget d "date"))))
          (sumExpense (store.filter
            (fun d => dateInWindow (⟨now.y, now.m, 1⟩, e)
              (fget d "date")))) } := by
    simp only [monthly_recap, orDefault, hs, he]
  refine ⟨hlist, _, hrecap, rfl, rfl, ?_⟩
  simp only [export_pdf, hrecap, hlist]

/-- Witness for C10 at a concrete clock date and a two-record store whose
dates lie outside the clock month. -/
theorem export_pdf_unfiltered_details_witness :
    (1 ≤ 6 ∧ 6 ≤ 12 ∧ 1 ≤ 2024 ∧ 2024 ≤ 9999) ∧
    (list_activities ⟨2024, 6, 15⟩ none none none none
          [PyFields.cons "date" (.vDate 2023 1 2)
            (.cons "name" (.vStr "Lama") .nil)]
        = [PyFields.cons "date" (.vDate 2023 1 2)
            (.cons "name" (.vStr "Lama") .nil)].map serialize_doc ∧
      ∃ r : RecapResult,
        monthly_recap ⟨2024, 6, 15⟩ none none
            [PyFields.cons "date" (.vDate 2023 1 2)
              (.cons "name" (.vStr "Lama") .nil)] = .ok r ∧
        r.month = ((6 : Nat) : Int) ∧ r.year = ((2024 : Nat) : Int) ∧
        export_pdf ⟨2024, 6, 15⟩ none none
            [PyFields.cons "date" (.vDate 2023 1 2)
              (.cons "name" (.vStr "Lama") .nil)]
          = .ok (joinNL
            (["Laporan Bulanan",
              "Bulan: " ++ toString r.month ++ "/" ++ toString r.year,
              r.summary, "", "Rincian Kegiatan:"]
              ++ ([PyFields.cons "date" (.vDate 2023 1 2)
                    (.cons "name" (.vStr "Lama") .nil)].map
                  serialize_doc).map detailLine))) :=
  ⟨⟨by norm_num, by norm_num, by norm_num, by norm_num⟩,
    export_pdf_unfiltered_details ⟨2024, 6, 15⟩
      [PyFields.cons "date" (.vDate 2023 1 2)
        (.cons "name" (.vStr "Lama") .nil)]
      (by norm_num) (by norm_num) (by norm_num) (by norm_num)
      (fun h => absurd h (by norm_num))⟩

end MonthlyReport
